import Mathlib

/-!
Shallow embedding of the jumping-ball platformer core
(src/config/Config.h, src/player/Player.cpp, src/level/Level.cpp,
src/game/Game.cpp).  C++ `float` values are modelled as rationals;
`GetRandomValue(lo,hi)` is modelled as an oracle `rand : ℕ → ℚ → ℚ → ℚ`
(`rand k lo hi` is the k-th draw of the frame) together with an in-range
hypothesis where a claim needs one.  All configuration ranges of the actual
program are whole numbers, so the `(int)` casts in the C++ calls to
`GetRandomValue` are the identity on them.  Clouds are purely decorative
(they are never read by collision, landing, scoring or the game-over logic),
so the cloud array is not part of the model.
-/

/-- GameConfig (src/config/Config.h), default (unscaled) values.
`groundY = screenHeight - 80 = 370`.  `Game::run` scales `gravity`,
`jumpVelocity` and `jumpHoldAccel` by the fullscreen height ratio;
all other fields are never mutated. -/
structure GameConfig where
  screenWidth : ℚ := 800
  screenHeight : ℚ := 450
  radius : ℚ := 20
  groundY : ℚ := 370
  gravity : ℚ := 1000
  jumpVelocity : ℚ := -550
  maxJumpHold : ℚ := 1/4
  jumpHoldAccel : ℚ := -1200
  scrollSpeed : ℚ := 220
  totalPlatforms : ℕ := 200
  minGap : ℚ := 260
  maxGap : ℚ := 420
  minPlatformWidth : ℚ := 120
  maxPlatformWidth : ℚ := 200
  platformHeight : ℚ := 14
  minPlatformY : ℚ := 20
  stepUpMin : ℚ := 15
  stepUpMax : ℚ := 35
deriving DecidableEq

/-- The configuration the program starts from (before fullscreen scaling). -/
def defaultCfg : GameConfig := {}

/-- Platform (src/level/Level.h). -/
structure Platform where
  x : ℚ
  yTop : ℚ
  width : ℚ
  counted : Bool
deriving DecidableEq

instance : Inhabited Platform := ⟨⟨0, 0, 0, false⟩⟩

/-- Player state (src/player/Player.h).  The field `rot` is the player's
`rotation` (degrees). -/
structure PlayerState where
  x : ℚ
  y : ℚ
  vy : ℚ
  rot : ℚ
  jumpsRemaining : ℤ
  isJumping : Bool
  grounded : Bool
  hasLeftGround : Bool
  jumpHoldTimer : ℚ
deriving DecidableEq

/-- Player::reset (src/player/Player.cpp lines 10-21). -/
def playerReset (cfg : GameConfig) : PlayerState :=
  ⟨cfg.screenWidth * (1/4), cfg.groundY, 0, 0, 2, false, true, false, 0⟩

/-- Player::update (src/player/Player.cpp lines 62-83).
`held` is the value of IsKeyDown(KEY_SPACE) this frame. -/
def stepPlayer (dt : ℚ) (held : Bool) (cfg : GameConfig) (p : PlayerState) :
    PlayerState :=
  let vy1 := p.vy + cfg.gravity * dt
  let hold := held ∧ p.isJumping ∧ p.jumpHoldTimer < cfg.maxJumpHold
  let vy2 := if hold then vy1 + cfg.jumpHoldAccel * dt else vy1
  let jt2 := if hold then p.jumpHoldTimer + dt else p.jumpHoldTimer
  let y2 := p.y + vy2 * dt
  let r1 := p.rot + 630 * dt
  let r2 := if r1 ≥ 360 then r1 - 360 else r1
  ⟨p.x, y2, vy2, r2, p.jumpsRemaining, p.isJumping, p.grounded,
    p.hasLeftGround, jt2⟩

/-- Player::setGrounded (src/player/Player.cpp lines 102-112). -/
def setGrounded (g : Bool) (p : PlayerState) : PlayerState :=
  if g then
    ⟨p.x, p.y, p.vy, p.rot, 2, false, true, p.hasLeftGround, p.jumpHoldTimer⟩
  else
    ⟨p.x, p.y, p.vy, p.rot, p.jumpsRemaining, p.isJumping, false,
      p.hasLeftGround, p.jumpHoldTimer⟩

/-- Result of Level::resolveLanding: final `y`, final `vy`, the returned
Bool, and the by-reference `landedOnGround` out-parameter. -/
structure LandRes where
  y : ℚ
  vy : ℚ
  landed : Bool
  landedOnGround : Bool
deriving DecidableEq

/-- The landing-candidate test of Level::resolveLanding
(src/level/Level.cpp lines 234-237) for one platform. -/
def landQual (ballX prevY y radius : ℚ) (p : Platform) : Prop :=
  y + radius ≥ p.yTop ∧ prevY + radius ≤ p.yTop ∧
    p.x ≤ ballX ∧ ballX ≤ p.x + p.width

instance (ballX prevY y radius : ℚ) (p : Platform) :
    Decidable (landQual ballX prevY y radius p) :=
  show Decidable (y + radius ≥ p.yTop ∧ prevY + radius ≤ p.yTop ∧
    p.x ≤ ballX ∧ ballX ≤ p.x + p.width) from inferInstance

/-- The platform loop of Level::resolveLanding (src/level/Level.cpp
lines 227-246): fold over the platforms carrying (targetY, landed). -/
def landLoop (ballX prevY y radius : ℚ) :
    List Platform → ℚ × Bool → ℚ × Bool
  | [], acc => acc
  | p :: ps, (t, l) =>
      if landQual ballX prevY y radius p ∧ p.yTop < t then
        landLoop ballX prevY y radius ps (p.yTop, true)
      else
        landLoop ballX prevY y radius ps (t, l)

/-- Level::resolveLanding (src/level/Level.cpp lines 217-266).
`targetY` starts at `cfg.groundY`; the platform loop only runs when
`vy ≥ 0`; afterwards either the platform snap, the ground snap, or
no change is applied. -/
def resolveLanding (ps : List Platform) (ballX prevY y vy radius groundY : ℚ) :
    LandRes :=
  let acc := if vy ≥ 0 then
    landLoop ballX prevY y radius ps (groundY, false)
  else (groundY, false)
  if acc.2 then ⟨acc.1 - radius, 0, true, false⟩
  else if y > groundY then ⟨groundY, 0, true, true⟩
  else ⟨y, vy, false, false⟩

/-- The circle-vs-rectangle test of Level::checkCollision
(src/level/Level.cpp lines 172-189) for one platform. -/
def collides (ballX ballY radius ph : ℚ) (p : Platform) : Bool :=
  let rx := p.x
  let ry := p.yTop
  let rw := p.width
  let rh := ph
  let cx := if ballX < rx then rx else if ballX > rx + rw then rx + rw else ballX
  let cy := if ballY < ry then ry else if ballY > ry + rh then ry + rh else ballY
  let dx := ballX - cx
  let dy := ballY - cy
  decide (dx * dx + dy * dy < radius * radius)

/-- Level::checkCollision (src/level/Level.cpp lines 167-193). -/
def checkCollision (ps : List Platform) (ballX ballY radius ph : ℚ) : Bool :=
  ps.any (collides ballX ballY radius ph)

/-- Level::awardScore (src/level/Level.cpp lines 140-153): returns the
gained count and the platform array with the newly passed platforms marked
`counted`.  The C++ `gained` only ever increments, so it is modelled as ℕ. -/
def awardScore (ballX radius : ℚ) : List Platform → ℕ × List Platform
  | [] => (0, [])
  | p :: ps =>
      let r := awardScore ballX radius ps
      if ¬p.counted ∧ p.x + p.width < ballX - radius then
        (r.1 + 1, ⟨p.x, p.yTop, p.width, true⟩ :: r.2)
      else
        (r.1, p :: r.2)

/-- The per-platform shift of the first loop of Level::scroll
(src/level/Level.cpp line 87). -/
def shiftPlatform (dt : ℚ) (cfg : GameConfig) (p : Platform) : Platform :=
  ⟨p.x - cfg.scrollSpeed * dt, p.yTop, p.width, p.counted⟩

/-- The `rightMost` computation of the first loop of Level::scroll
(src/level/Level.cpp lines 84-92): maximum of the (already shifted) x
values, seeded with 0. -/
def maxX : List Platform → ℚ → ℚ
  | [], m => m
  | p :: ps, m => maxX ps (if p.x > m then p.x else m)

/-- The recycling loop of Level::scroll (src/level/Level.cpp lines 95-110):
a platform whose right edge is left of -60 is respawned at
`rightMost + gap` with fresh width and a step from its own previous yTop,
`counted` reset, and `rightMost` updated to the new x.  `k` counts the
random draws already consumed this frame. -/
def recyclePass (rand : ℕ → ℚ → ℚ → ℚ) (cfg : GameConfig) :
    List Platform → ℕ → ℚ → List Platform
  | [], _, _ => []
  | p :: ps, k, rm =>
      if p.x + p.width < -60 then
        let gap := rand k cfg.minGap cfg.maxGap
        let w := rand (k+1) cfg.minPlatformWidth cfg.maxPlatformWidth
        let step := rand (k+2) cfg.stepUpMin cfg.stepUpMax
        let ny := max cfg.minPlatformY (p.yTop - step)
        ⟨rm + gap, ny, w, false⟩ :: recyclePass rand cfg ps (k+3) (rm + gap)
      else
        p :: recyclePass rand cfg ps k rm

/-- The value of the `rightMost` tracker of the recycling loop just before
the platform at a given index is processed. -/
def rmBefore (rand : ℕ → ℚ → ℚ → ℚ) (cfg : GameConfig) :
    List Platform → ℕ → ℚ → ℕ → ℚ
  | _, _, rm, 0 => rm
  | [], _, rm, _ + 1 => rm
  | p :: ps, k, rm, i + 1 =>
      if p.x + p.width < -60 then
        rmBefore rand cfg ps (k+3) (rm + rand k cfg.minGap cfg.maxGap) i
      else
        rmBefore rand cfg ps k rm i

/-- Level::scroll restricted to the platform array
(src/level/Level.cpp lines 81-110). -/
def scrollPlatforms (dt : ℚ) (rand : ℕ → ℚ → ℚ → ℚ) (cfg : GameConfig)
    (ps : List Platform) : List Platform :=
  let shifted := ps.map (shiftPlatform dt cfg)
  recyclePass rand cfg shifted 0 (maxX shifted 0)

/-- The platform-generating loop of Level::generate
(src/level/Level.cpp lines 36-51): `cursor` is the horizontal cursor,
`prevTop` the previous platform's yTop (initially `groundY - 20`),
`k` the number of draws consumed. -/
def genAux (rand : ℕ → ℚ → ℚ → ℚ) (cfg : GameConfig) :
    ℕ → ℕ → ℚ → ℚ → List Platform
  | 0, _, _, _ => []
  | n + 1, k, cursor, prevTop =>
      let gap := rand k cfg.minGap cfg.maxGap
      let cursor2 := cursor + gap
      let w := rand (k+1) cfg.minPlatformWidth cfg.maxPlatformWidth
      let step := rand (k+2) cfg.stepUpMin cfg.stepUpMax
      let top := max cfg.minPlatformY (prevTop - step)
      ⟨cursor2, top, w, false⟩ :: genAux rand cfg n (k+3) cursor2 top

/-- Level::generate restricted to the platform array
(src/level/Level.cpp lines 25-51). -/
def generate (rand : ℕ → ℚ → ℚ → ℚ) (cfg : GameConfig) : List Platform :=
  genAux rand cfg cfg.totalPlatforms 0 (cfg.screenWidth + 200) (cfg.groundY - 20)

/-- Game state (src/game/Game.h lines 86-95) restricted to the fields
update/reset read or write. -/
structure GState where
  player : PlayerState
  platforms : List Platform
  score : ℕ
  gameOver : Bool
  levelComplete : Bool
  cameraOffsetY : ℚ
deriving DecidableEq

/-- Game::reset (src/game/Game.cpp lines 58-66). -/
def resetState (rand : ℕ → ℚ → ℚ → ℚ) (cfg : GameConfig) : GState :=
  ⟨playerReset cfg, generate rand cfg, 0, false, false, 0⟩

/-- Game::update (src/game/Game.cpp lines 125-176): early return when a
terminal flag is set; otherwise player physics, scroll, landing
resolution, grounded propagation, camera, ground-touch death, scoring,
win check, collision death — in exactly that order. -/
def update (dt : ℚ) (held : Bool) (rand : ℕ → ℚ → ℚ → ℚ) (cfg : GameConfig)
    (s : GState) : GState :=
  if s.gameOver ∨ s.levelComplete then s else
  let prevY := s.player.y
  let pl := stepPlayer dt held cfg s.player
  let ps := scrollPlatforms dt rand cfg s.platforms
  let lr := resolveLanding ps pl.x prevY pl.y pl.vy cfg.radius cfg.groundY
  let pl2 := setGrounded lr.landed
    ⟨pl.x, lr.y, lr.vy, pl.rot, pl.jumpsRemaining, pl.isJumping, pl.grounded,
      pl.hasLeftGround, pl.jumpHoldTimer⟩
  let cam := min 0 (pl2.y - cfg.screenHeight * (2/5))
  let go1 := lr.landedOnGround && pl2.hasLeftGround
  let aw := awardScore pl2.x cfg.radius ps
  let score2 := s.score + aw.1
  let lc2 := s.levelComplete || decide (cfg.totalPlatforms ≤ score2)
  let go2 := (s.gameOver || go1) ||
    checkCollision aw.2 pl2.x pl2.y cfg.radius cfg.platformHeight
  ⟨pl2, aw.2, score2, go2, lc2, cam⟩

/-- The platform array of the frame, after Level::scroll, as used by
resolveLanding inside Game::update. -/
def framePlatforms (dt : ℚ) (rand : ℕ → ℚ → ℚ → ℚ) (cfg : GameConfig)
    (s : GState) : List Platform :=
  scrollPlatforms dt rand cfg s.platforms

/-- The landing resolution performed inside Game::update: it runs on the
post-physics player position against the post-scroll platforms, with
`prevY` the player's y of the previous frame. -/
def frameLand (dt : ℚ) (held : Bool) (rand : ℕ → ℚ → ℚ → ℚ)
    (cfg : GameConfig) (s : GState) : LandRes :=
  resolveLanding (framePlatforms dt rand cfg s)
    (stepPlayer dt held cfg s.player).x s.player.y
    (stepPlayer dt held cfg s.player).y
    (stepPlayer dt held cfg s.player).vy cfg.radius cfg.groundY

/-- The player state after physics, landing resolution and
setGrounded inside Game::update. -/
def framePlayer (dt : ℚ) (held : Bool) (rand : ℕ → ℚ → ℚ → ℚ)
    (cfg : GameConfig) (s : GState) : PlayerState :=
  setGrounded (frameLand dt held rand cfg s).landed
    ⟨(stepPlayer dt held cfg s.player).x,
      (frameLand dt held rand cfg s).y,
      (frameLand dt held rand cfg s).vy,
      (stepPlayer dt held cfg s.player).rot,
      (stepPlayer dt held cfg s.player).jumpsRemaining,
      (stepPlayer dt held cfg s.player).isJumping,
      (stepPlayer dt held cfg s.player).grounded,
      (stepPlayer dt held cfg s.player).hasLeftGround,
      (stepPlayer dt held cfg s.player).jumpHoldTimer⟩

/-- The awardScore call of the frame. -/
def frameAward (dt : ℚ) (held : Bool) (rand : ℕ → ℚ → ℚ → ℚ)
    (cfg : GameConfig) (s : GState) : ℕ × List Platform :=
  awardScore (framePlayer dt held rand cfg s).x cfg.radius
    (framePlatforms dt rand cfg s)

/-- The random oracle respects the requested ranges, as GetRandomValue
does whenever lo ≤ hi. -/
def InRange (rand : ℕ → ℚ → ℚ → ℚ) : Prop :=
  ∀ k lo hi, lo ≤ hi → lo ≤ rand k lo hi ∧ rand k lo hi ≤ hi

/-- States reachable from Game::reset by Game::update steps, for the
default configuration with gravity `g` (the one physics constant that
both matters to update-only runs and is rescaled at startup).  Frame
times are nonnegative and random draws respect their ranges; the held-key
input and the per-frame oracle are arbitrary. -/
inductive Reach (g : ℚ) : GState → Prop where
  | init : ∀ rand, InRange rand → Reach g (resetState rand { gravity := g })
  | step : ∀ s dt held rand, Reach g s → 0 ≤ dt → InRange rand →
      Reach g (update dt held rand { gravity := g } s)

/-- The platform bounds invariant of the spec: yTop within
[minPlatformY, groundY - 20] and width within
[minPlatformWidth, maxPlatformWidth]. -/
def inBounds (cfg : GameConfig) (p : Platform) : Prop :=
  cfg.minPlatformY ≤ p.yTop ∧ p.yTop ≤ cfg.groundY - 20 ∧
    cfg.minPlatformWidth ≤ p.width ∧ p.width ≤ cfg.maxPlatformWidth

/-- Inductive invariant for update-only runs of the game (the
configuration is the default one except for gravity): the ball never
leaves the ground band, no jump state is ever set, and every platform top
stays at or above depth 335 = groundY - 20 - stepUpMin, so the grounded
ball can never die and `gameOver` stays false. -/
def C4Inv (s : GState) : Prop :=
  s.gameOver = false ∧ s.player.y = 370 ∧ 0 ≤ s.player.vy ∧
    s.player.isJumping = false ∧ s.player.hasLeftGround = false ∧
    ∀ p ∈ s.platforms, p.yTop ≤ 335

/-! ## Helper lemmas about the landing loop -/

/-- Characterisation of the platform loop of resolveLanding: either no
platform both qualifies and beats the running target (the accumulator is
returned unchanged), or the flag is set and the final target is the
smallest qualifying yTop, strictly below the initial target. -/
theorem landLoop_spec (ballX prevY y radius : ℚ) (ps : List Platform) :
    ∀ (t0 : ℚ) (l0 : Bool),
      (landLoop ballX prevY y radius ps (t0, l0) = (t0, l0) ∧
        ∀ p ∈ ps, landQual ballX prevY y radius p → t0 ≤ p.yTop) ∨
      ((landLoop ballX prevY y radius ps (t0, l0)).2 = true ∧
        (landLoop ballX prevY y radius ps (t0, l0)).1 < t0 ∧
        (∃ p ∈ ps, landQual ballX prevY y radius p ∧
          (landLoop ballX prevY y radius ps (t0, l0)).1 = p.yTop) ∧
        ∀ p ∈ ps, landQual ballX prevY y radius p →
          (landLoop ballX prevY y radius ps (t0, l0)).1 ≤ p.yTop) := by
  induction ps with
  | nil => intro t0 l0; exact Or.inl ⟨rfl, by simp⟩
  | cons p ps ih =>
    intro t0 l0
    by_cases hc : landQual ballX prevY y radius p ∧ p.yTop < t0
    · have hre : landLoop ballX prevY y radius (p :: ps) (t0, l0) =
          landLoop ballX prevY y radius ps (p.yTop, true) := by
        simp only [landLoop, if_pos hc]
      rcases ih p.yTop true with ⟨heq, hall⟩ | ⟨h2, hlt, ⟨q, hqm, hql, hqe⟩, hall⟩
      · refine Or.inr ?_
        rw [hre, heq]
        refine ⟨rfl, hc.2, ⟨p, List.mem_cons_self p ps, hc.1, rfl⟩, ?_⟩
        intro q hq hql
        rcases List.mem_cons.mp hq with h | h
        · subst h; exact le_refl _
        · exact hall q h hql
      · refine Or.inr ?_
        rw [hre]
        refine ⟨h2, lt_trans hlt hc.2, ⟨q, List.mem_cons_of_mem p hqm, hql, hqe⟩, ?_⟩
        intro r hr hrl
        rcases List.mem_cons.mp hr with h | h
        · subst h; exact le_of_lt hlt
        · exact hall r h hrl
    · have hre : landLoop ballX prevY y radius (p :: ps) (t0, l0) =
          landLoop ballX prevY y radius ps (t0, l0) := by
        simp only [landLoop, if_neg hc]
      have hp : landQual ballX prevY y radius p → t0 ≤ p.yTop := by
        intro hql
        by_contra hlt
        exact hc ⟨hql, not_le.mp hlt⟩
      rcases ih t0 l0 with ⟨heq, hall⟩ | ⟨h2, hlt, ⟨q, hqm, hql, hqe⟩, hall⟩
      · refine Or.inl ⟨by rw [hre, heq], ?_⟩
        intro q hq hql
        rcases List.mem_cons.mp hq with h | h
        · subst h; exact hp hql
        · exact hall q h hql
      · refine Or.inr ?_
        rw [hre]
        refine ⟨h2, hlt, ⟨q, List.mem_cons_of_mem p hqm, hql, hqe⟩, ?_⟩
        intro r hr hrl
        rcases List.mem_cons.mp hr with h | h
        · subst h; exact le_of_lt (lt_of_lt_of_le hlt (hp hrl))
        · exact hall r h hrl

/-- If no platform qualifies, the landing loop returns its accumulator. -/
theorem landLoop_no_qual (ballX prevY y radius : ℚ) (ps : List Platform)
    (t0 : ℚ) (l0 : Bool)
    (h : ∀ p ∈ ps, ¬ landQual ballX prevY y radius p) :
    landLoop ballX prevY y radius ps (t0, l0) = (t0, l0) := by
  rcases landLoop_spec ballX prevY y radius ps t0 l0 with ⟨heq, _⟩ |
    ⟨_, _, ⟨q, hqm, hql, _⟩, _⟩
  · exact heq
  · exact absurd hql (h q hqm)

/-! ## resolveLanding: C2, C3, C10 -/

/-- C2 counterexample: the claim asserts that every call with `vy < 0`
leaves `y`,`vy` unchanged and returns `landed = false`,
`landedOnGround = false` regardless of `y`.  But the ground snap of
resolveLanding is outside the `vy ≥ 0` guard: with `vy = -1` and
`y = 371 > groundY = 370` (no platforms at all) the call snaps to the
ground and reports a ground landing. -/
theorem C2_claim_counterexample :
    (-1 : ℚ) < 0 ∧
    (resolveLanding [] 0 0 371 (-1) 20 370).landed = true ∧
    (resolveLanding [] 0 0 371 (-1) 20 370).landedOnGround = true ∧
    (resolveLanding [] 0 0 371 (-1) 20 370).y = 370 ∧
    (resolveLanding [] 0 0 371 (-1) 20 370).vy = 0 := by
  norm_num [resolveLanding, landLoop]

/-- C2 (amended): with `vy < 0` the platform evaluation is skipped, and
provided additionally `y ≤ groundY` (so the unconditional ground snap
does not fire) the call returns `landed = false`,
`landedOnGround = false` and leaves `y` and `vy` unchanged. -/
theorem C2_upward_no_landing (ps : List Platform)
    (ballX prevY y vy radius groundY : ℚ)
    (hvy : vy < 0) (hy : y ≤ groundY) :
    resolveLanding ps ballX prevY y vy radius groundY = ⟨y, vy, false, false⟩ := by
  have h1 : ¬ (vy ≥ 0) := not_le.mpr hvy
  have h2 : ¬ (y > groundY) := not_lt.mpr hy
  simp [resolveLanding, h1, h2]

/-- C2 witness. -/
theorem C2_upward_no_landing_witness :
    (-3 : ℚ) < 0 ∧ (350 : ℚ) ≤ 370 ∧
    resolveLanding [⟨100, 340, 100, false⟩] 150 330 350 (-3) 20 370 =
      ⟨350, -3, false, false⟩ :=
  ⟨by norm_num, by norm_num,
    C2_upward_no_landing [⟨100, 340, 100, false⟩] 150 330 350 (-3) 20 370
      (by norm_num) (by norm_num)⟩

/-- C3 counterexample: the claim asserts that whenever `vy ≥ 0` and some
platform qualifies (downward crossing of its top with horizontal overlap)
the ball is snapped onto the best qualifier.  But the running target of
the loop starts at `groundY` and is only beaten by a strictly smaller
yTop, so a qualifying platform whose top is at (or below) `groundY` is
ignored: here the single platform qualifies, yet no landing happens and
`y`,`vy` are unchanged. -/
theorem C3_claim_counterexample :
    landQual 50 340 351 20 ⟨0, 370, 100, false⟩ ∧
    (0 : ℚ) ≥ 0 ∧
    (resolveLanding [⟨0, 370, 100, false⟩] 50 340 351 0 20 370).landed = false ∧
    (resolveLanding [⟨0, 370, 100, false⟩] 50 340 351 0 20 370).y = 351 := by
  norm_num [resolveLanding, landLoop, landQual]

/-- C3 (amended): for every call with `vy ≥ 0` in which at least one
platform qualifies with `yTop` strictly below `groundY`, the function
lands: it snaps `y` to `winningTop - radius` where `winningTop` is the
smallest yTop among all qualifiers, sets `vy = 0`, and returns
`landed = true`, `landedOnGround = false` (on an exact tie the first
platform wins, which returns the same snapped state). -/
theorem C3_highest_platform_wins (ps : List Platform)
    (ballX prevY y vy radius groundY : ℚ) (hvy : vy ≥ 0)
    (hex : ∃ p ∈ ps, landQual ballX prevY y radius p ∧ p.yTop < groundY) :
    (resolveLanding ps ballX prevY y vy radius groundY).landed = true ∧
    (resolveLanding ps ballX prevY y vy radius groundY).landedOnGround = false ∧
    (resolveLanding ps ballX prevY y vy radius groundY).vy = 0 ∧
    (∃ p ∈ ps, landQual ballX prevY y radius p ∧
      (resolveLanding ps ballX prevY y vy radius groundY).y = p.yTop - radius) ∧
    ∀ q ∈ ps, landQual ballX prevY y radius q →
      (resolveLanding ps ballX prevY y vy radius groundY).y ≤ q.yTop - radius := by
  obtain ⟨p, hpm, hpq, hpt⟩ := hex
  rcases landLoop_spec ballX prevY y radius ps groundY false with ⟨_, hall⟩ |
    ⟨h2, _, ⟨q, hqm, hql, hqe⟩, hall⟩
  · exact absurd hpt (not_lt.mpr (hall p hpm hpq))
  · have hacc : (if vy ≥ 0 then landLoop ballX prevY y radius ps (groundY, false)
        else (groundY, false)) = landLoop ballX prevY y radius ps (groundY, false) :=
      if_pos hvy
    have hres : resolveLanding ps ballX prevY y vy radius groundY =
        ⟨(landLoop ballX prevY y radius ps (groundY, false)).1 - radius, 0,
          true, false⟩ := by
      simp only [resolveLanding, hacc, h2, if_true]
    rw [hres]
    refine ⟨rfl, rfl, rfl, ⟨q, hqm, hql, by rw [hqe]⟩, ?_⟩
    intro r hrm hrl
    have := hall r hrm hrl
    simp only []
    linarith

/-- C3 witness: two qualifying platforms, tops 340 and 300; the ball is
snapped onto the higher one (smaller yTop): y = 300 - 20 = 280. -/
theorem C3_highest_platform_wins_witness :
    (0 : ℚ) ≥ 0 ∧
    (∃ p ∈ [(⟨100, 340, 100, false⟩ : Platform), ⟨100, 300, 100, false⟩],
      landQual 150 270 330 20 p ∧ p.yTop < 370) ∧
    ((resolveLanding [⟨100, 340, 100, false⟩, ⟨100, 300, 100, false⟩]
        150 270 330 0 20 370).landed = true ∧
      (resolveLanding [⟨100, 340, 100, false⟩, ⟨100, 300, 100, false⟩]
        150 270 330 0 20 370).landedOnGround = false ∧
      (resolveLanding [⟨100, 340, 100, false⟩, ⟨100, 300, 100, false⟩]
        150 270 330 0 20 370).vy = 0 ∧
      (∃ p ∈ [(⟨100, 340, 100, false⟩ : Platform), ⟨100, 300, 100, false⟩],
        landQual 150 270 330 20 p ∧
        (resolveLanding [⟨100, 340, 100, false⟩, ⟨100, 300, 100, false⟩]
          150 270 330 0 20 370).y = p.yTop - 20) ∧
      ∀ q ∈ [(⟨100, 340, 100, false⟩ : Platform), ⟨100, 300, 100, false⟩],
        landQual 150 270 330 20 q →
        (resolveLanding [⟨100, 340, 100, false⟩, ⟨100, 300, 100, false⟩]
          150 270 330 0 20 370).y ≤ q.yTop - 20) :=
  ⟨by norm_num,
    ⟨⟨100, 300, 100, false⟩, by norm_num [landQual]⟩,
    C3_highest_platform_wins _ 150 270 330 0 20 370 (by norm_num)
      ⟨⟨100, 300, 100, false⟩, by norm_num [landQual]⟩⟩

/-- resolveLanding either lands (Bool result true) or is the identity on
`y`,`vy` with both flags false. -/
theorem resolveLanding_shape (ps : List Platform)
    (ballX prevY y vy radius groundY : ℚ) :
    resolveLanding ps ballX prevY y vy radius groundY = ⟨y, vy, false, false⟩ ∨
    (resolveLanding ps ballX prevY y vy radius groundY).landed = true := by
  simp only [resolveLanding]
  split_ifs <;> simp

/-- C10: whenever resolveLanding returns `landed = false`, the
by-reference parameters `y` and `vy` are unchanged and the
`landedOnGround` out-parameter is false. -/
theorem C10_no_landing_frame_preserving (ps : List Platform)
    (ballX prevY y vy radius groundY : ℚ)
    (h : (resolveLanding ps ballX prevY y vy radius groundY).landed = false) :
    (resolveLanding ps ballX prevY y vy radius groundY).y = y ∧
    (resolveLanding ps ballX prevY y vy radius groundY).vy = vy ∧
    (resolveLanding ps ballX prevY y vy radius groundY).landedOnGround = false := by
  rcases resolveLanding_shape ps ballX prevY y vy radius groundY with heq | hl
  · rw [heq]; exact ⟨rfl, rfl, rfl⟩
  · rw [hl] at h; cases h

/-- C10 witness. -/
theorem C10_no_landing_frame_preserving_witness :
    (resolveLanding [] 0 0 100 5 20 370).landed = false ∧
    ((resolveLanding [] 0 0 100 5 20 370).y = 100 ∧
      (resolveLanding [] 0 0 100 5 20 370).vy = 5 ∧
      (resolveLanding [] 0 0 100 5 20 370).landedOnGround = false) :=
  ⟨by norm_num [resolveLanding, landLoop],
    C10_no_landing_frame_preserving [] 0 0 100 5 20 370
      (by norm_num [resolveLanding, landLoop])⟩

/-! ## awardScore: C7 -/

/-- C7: awardScore is single-fire and counts exactly the not-yet-counted
platforms whose right edge is strictly left of `ballX - radius`:
a second call on the returned array gains 0 and changes nothing, the
gained count equals the number of qualifying platforms (non-negative by
construction), and the returned array marks exactly those platforms. -/
theorem C7_awardScore_single_fire (ballX radius : ℚ) (ps : List Platform) :
    awardScore ballX radius (awardScore ballX radius ps).2 =
      (0, (awardScore ballX radius ps).2) ∧
    (awardScore ballX radius ps).1 =
      (ps.filter fun p =>
        decide (¬p.counted ∧ p.x + p.width < ballX - radius)).length ∧
    (awardScore ballX radius ps).2 =
      ps.map fun p =>
        if ¬p.counted ∧ p.x + p.width < ballX - radius then
          ⟨p.x, p.yTop, p.width, true⟩ else p := by
  induction ps with
  | nil => exact ⟨rfl, rfl, rfl⟩
  | cons p ps ih =>
    obtain ⟨ih1, ih2, ih3⟩ := ih
    by_cases hc : ¬p.counted ∧ p.x + p.width < ballX - radius
    · have h1 : awardScore ballX radius (p :: ps) =
          ((awardScore ballX radius ps).1 + 1,
            ⟨p.x, p.yTop, p.width, true⟩ :: (awardScore ballX radius ps).2) := by
        simp only [awardScore, if_pos hc]
      have h2 : awardScore ballX radius
          (⟨p.x, p.yTop, p.width, true⟩ :: (awardScore ballX radius ps).2) =
          ((awardScore ballX radius (awardScore ballX radius ps).2).1,
            ⟨p.x, p.yTop, p.width, true⟩ ::
              (awardScore ballX radius (awardScore ballX radius ps).2).2) := by
        simp only [awardScore]
        simp
      refine ⟨?_, ?_, ?_⟩
      · rw [h1, h2, ih1]
      · rw [h1, List.filter_cons_of_pos (by exact decide_eq_true hc),
          List.length_cons, ih2]
      · rw [h1, List.map_cons, if_pos hc, ih3]
    · have h1 : awardScore ballX radius (p :: ps) =
          ((awardScore ballX radius ps).1,
            p :: (awardScore ballX radius ps).2) := by
        simp only [awardScore, if_neg hc]
      have h2 : awardScore ballX radius (p :: (awardScore ballX radius ps).2) =
          ((awardScore ballX radius (awardScore ballX radius ps).2).1,
            p :: (awardScore ballX radius (awardScore ballX radius ps).2).2) := by
        simp only [awardScore, if_neg hc]
      refine ⟨?_, ?_, ?_⟩
      · rw [h1, h2, ih1]
      · rw [h1, List.filter_cons_of_neg (by simpa using hc), ih2]
      · rw [h1, List.map_cons, if_neg hc, ih3]

/-! ## Player rotation: C9 -/

/-- C9 counterexample: the claim asserts the wrap for every `dt ≥ 0`, but
Player::update subtracts 360 at most once.  With `dt = 1` and the rotation
field at 100 (inside [0,360)), the result is 100 + 630 - 360 = 370,
outside [0,360). -/
theorem C9_claim_counterexample :
    (0 : ℚ) ≤ 1 ∧ (0 : ℚ) ≤ 100 ∧ (100 : ℚ) < 360 ∧
    (stepPlayer 1 false defaultCfg
      ⟨200, 370, 0, 100, 2, false, true, false, 0⟩).rot = 370 ∧
    ¬((stepPlayer 1 false defaultCfg
      ⟨200, 370, 0, 100, 2, false, true, false, 0⟩).rot < 360) := by
  norm_num [stepPlayer, defaultCfg]

/-- C9 (amended): for every call of Player::update with `0 ≤ dt` and
`630·dt ≤ 360` (i.e. dt ≤ 4/7 s, which covers every 60-FPS frame), if the
rotation field is in [0,360) before the call then it is in [0,360) after;
the single conditional subtraction cannot wrap a larger advance. -/
theorem C9_rot_wrapped (dt : ℚ) (held : Bool) (cfg : GameConfig)
    (p : PlayerState) (hdt : 0 ≤ dt) (hbound : 630 * dt ≤ 360)
    (h0 : 0 ≤ p.rot) (h1 : p.rot < 360) :
    0 ≤ (stepPlayer dt held cfg p).rot ∧
    (stepPlayer dt held cfg p).rot < 360 := by
  simp only [stepPlayer]
  split_ifs with h
  · constructor <;> linarith
  · constructor <;> linarith

/-- C9 witness. -/
theorem C9_rot_wrapped_witness :
    (0 : ℚ) ≤ 1/100 ∧ (630 : ℚ) * (1/100) ≤ 360 ∧
    (0 : ℚ) ≤ (⟨200, 370, 0, 350, 2, false, true, false, 0⟩ : PlayerState).rot ∧
    (⟨200, 370, 0, 350, 2, false, true, false, 0⟩ : PlayerState).rot < 360 ∧
    (0 ≤ (stepPlayer (1/100) false defaultCfg
        ⟨200, 370, 0, 350, 2, false, true, false, 0⟩).rot ∧
      (stepPlayer (1/100) false defaultCfg
        ⟨200, 370, 0, 350, 2, false, true, false, 0⟩).rot < 360) :=
  ⟨by norm_num, by norm_num, by norm_num, by norm_num,
    C9_rot_wrapped (1/100) false defaultCfg _ (by norm_num) (by norm_num)
      (by norm_num) (by norm_num)⟩

/-! ## Level generation and scrolling: C5, C6 -/

/-- The generation loop keeps every produced platform in bounds, provided
draws are in range, `minPlatformY ≤ groundY - 20`, steps are nonnegative,
and the running previous top is at most `groundY - 20`. -/
theorem genAux_bounds (rand : ℕ → ℚ → ℚ → ℚ) (cfg : GameConfig)
    (hr : InRange rand) (hminy : cfg.minPlatformY ≤ cfg.groundY - 20)
    (hstep0 : 0 ≤ cfg.stepUpMin) (hstep : cfg.stepUpMin ≤ cfg.stepUpMax)
    (hw : cfg.minPlatformWidth ≤ cfg.maxPlatformWidth) :
    ∀ (n k : ℕ) (cursor prevTop : ℚ), prevTop ≤ cfg.groundY - 20 →
      ∀ p ∈ genAux rand cfg n k cursor prevTop, inBounds cfg p := by
  intro n
  induction n with
  | zero => intro k cursor prevTop hpt p hp; simp [genAux] at hp
  | succ n ih =>
    intro k cursor prevTop hpt p hp
    simp only [genAux, List.mem_cons] at hp
    obtain ⟨hs1, hs2⟩ := hr (k+2) cfg.stepUpMin cfg.stepUpMax hstep
    obtain ⟨hw1, hw2⟩ := hr (k+1) cfg.minPlatformWidth cfg.maxPlatformWidth hw
    have htop : max cfg.minPlatformY (prevTop - rand (k+2) cfg.stepUpMin cfg.stepUpMax)
        ≤ cfg.groundY - 20 := max_le hminy (by linarith)
    rcases hp with heq | hmem
    · rw [heq]
      exact ⟨le_max_left _ _, htop, hw1, hw2⟩
    · exact ih (k+3) _ _ htop p hmem

/-- The recycling loop preserves the platform bounds invariant. -/
theorem recyclePass_bounds (rand : ℕ → ℚ → ℚ → ℚ) (cfg : GameConfig)
    (hr : InRange rand) (hminy : cfg.minPlatformY ≤ cfg.groundY - 20)
    (hstep0 : 0 ≤ cfg.stepUpMin) (hstep : cfg.stepUpMin ≤ cfg.stepUpMax)
    (hw : cfg.minPlatformWidth ≤ cfg.maxPlatformWidth) :
    ∀ (ps : List Platform) (k : ℕ) (rm : ℚ), (∀ p ∈ ps, inBounds cfg p) →
      ∀ q ∈ recyclePass rand cfg ps k rm, inBounds cfg q := by
  intro ps
  induction ps with
  | nil => intro k rm hps q hq; simp [recyclePass] at hq
  | cons p ps ih =>
    intro k rm hps q hq
    have hp := hps p (List.mem_cons_self p ps)
    have hps2 : ∀ r ∈ ps, inBounds cfg r :=
      fun r hr2 => hps r (List.mem_cons_of_mem p hr2)
    by_cases hrec : p.x + p.width < -60
    · simp only [recyclePass, if_pos hrec, List.mem_cons] at hq
      obtain ⟨hs1, hs2⟩ := hr (k+2) cfg.stepUpMin cfg.stepUpMax hstep
      obtain ⟨hw1, hw2⟩ := hr (k+1) cfg.minPlatformWidth cfg.maxPlatformWidth hw
      rcases hq with heq | hmem
      · rw [heq]
        refine ⟨le_max_left _ _, max_le hminy ?_, hw1, hw2⟩
        have := hp.2.1
        linarith
      · exact ih (k+3) _ hps2 q hmem
    · simp only [recyclePass, if_neg hrec, List.mem_cons] at hq
      rcases hq with heq | hmem
      · rw [heq]; exact hp
      · exact ih k rm hps2 q hmem

/-- C5: assuming the draws fall in their requested ranges and the
configuration satisfies `minPlatformY ≤ groundY - 20` (plus the facts,
true of the program's configuration, that the step range is nonnegative
and the requested ranges are non-empty), every platform produced by
generate is in bounds, and every call to scroll — including recycling —
preserves the bounds of every platform. -/
theorem C5_platform_bounds (rand : ℕ → ℚ → ℚ → ℚ) (cfg : GameConfig)
    (hr : InRange rand) (hminy : cfg.minPlatformY ≤ cfg.groundY - 20)
    (hstep0 : 0 ≤ cfg.stepUpMin) (hstep : cfg.stepUpMin ≤ cfg.stepUpMax)
    (hw : cfg.minPlatformWidth ≤ cfg.maxPlatformWidth) :
    (∀ p ∈ generate rand cfg, inBounds cfg p) ∧
    ∀ (dt : ℚ) (rand2 : ℕ → ℚ → ℚ → ℚ), InRange rand2 →
      ∀ ps : List Platform, (∀ p ∈ ps, inBounds cfg p) →
        ∀ q ∈ scrollPlatforms dt rand2 cfg ps, inBounds cfg q := by
  constructor
  · exact genAux_bounds rand cfg hr hminy hstep0 hstep hw cfg.totalPlatforms 0
      (cfg.screenWidth + 200) (cfg.groundY - 20) (le_refl _)
  · intro dt rand2 hr2 ps hps q hq
    have hshift : ∀ p ∈ ps.map (shiftPlatform dt cfg), inBounds cfg p := by
      intro p hp
      obtain ⟨r, hrm, hre⟩ := List.mem_map.mp hp
      rw [← hre]
      exact hps r hrm
    exact recyclePass_bounds rand2 cfg hr2 hminy hstep0 hstep hw
      (ps.map (shiftPlatform dt cfg)) 0 (maxX (ps.map (shiftPlatform dt cfg)) 0)
      hshift q hq

/-- C5 witness (program configuration, draws pinned to their lower
bounds, scrolling the generated layout by dt = 1). -/
theorem C5_platform_bounds_witness :
    InRange (fun _ lo _ => lo) ∧
    defaultCfg.minPlatformY ≤ defaultCfg.groundY - 20 ∧
    (0 : ℚ) ≤ defaultCfg.stepUpMin ∧
    defaultCfg.stepUpMin ≤ defaultCfg.stepUpMax ∧
    defaultCfg.minPlatformWidth ≤ defaultCfg.maxPlatformWidth ∧
    ((∀ p ∈ generate (fun _ lo _ => lo) defaultCfg, inBounds defaultCfg p) ∧
      ∀ (dt : ℚ) (rand2 : ℕ → ℚ → ℚ → ℚ), InRange rand2 →
        ∀ ps : List Platform, (∀ p ∈ ps, inBounds defaultCfg p) →
          ∀ q ∈ scrollPlatforms dt rand2 defaultCfg ps, inBounds defaultCfg q) :=
  ⟨fun _ lo hi h => ⟨le_refl lo, h⟩,
    by norm_num [defaultCfg], by norm_num [defaultCfg], by norm_num [defaultCfg],
    by norm_num [defaultCfg],
    C5_platform_bounds (fun _ lo _ => lo) defaultCfg
      (fun _ lo hi h => ⟨le_refl lo, h⟩)
      (by norm_num [defaultCfg]) (by norm_num [defaultCfg])
      (by norm_num [defaultCfg]) (by norm_num [defaultCfg])⟩

/-- getD commutes with map for indices inside the list. -/
theorem listGetD_map (f : Platform → Platform) :
    ∀ (l : List Platform) (i : ℕ), i < l.length →
      (l.map f).getD i default = f (l.getD i default) := by
  intro l
  induction l with
  | nil => intro i h; simp at h
  | cons a l ih =>
    intro i h
    cases i with
    | zero => simp
    | succ i =>
      simp only [List.map_cons, List.getD_cons_succ]
      exact ih i (Nat.lt_of_succ_lt_succ (by simpa using h))

/-- Per-index characterisation of the recycling loop: a platform whose
(shifted) right edge is not past -60 is returned unchanged; a recycled one
gets an x strictly above the rightMost tracker value current when it is
processed, with `counted` reset. -/
theorem recyclePass_spec (rand : ℕ → ℚ → ℚ → ℚ) (cfg : GameConfig)
    (hgap : ∀ k : ℕ, cfg.minGap ≤ rand k cfg.minGap cfg.maxGap)
    (h0 : 0 < cfg.minGap) :
    ∀ (ps : List Platform) (k : ℕ) (rm : ℚ) (i : ℕ), i < ps.length →
      (¬((ps.getD i default).x + (ps.getD i default).width < -60) →
        (recyclePass rand cfg ps k rm).getD i default = ps.getD i default) ∧
      ((ps.getD i default).x + (ps.getD i default).width < -60 →
        rmBefore rand cfg ps k rm i <
          ((recyclePass rand cfg ps k rm).getD i default).x ∧
        ((recyclePass rand cfg ps k rm).getD i default).counted = false) := by
  intro ps
  induction ps with
  | nil => intro k rm i hi; simp at hi
  | cons p ps ih =>
    intro k rm i hi
    by_cases hrec : p.x + p.width < -60
    · have hre : recyclePass rand cfg (p :: ps) k rm =
          ⟨rm + rand k cfg.minGap cfg.maxGap,
            max cfg.minPlatformY
              (p.yTop - rand (k+2) cfg.stepUpMin cfg.stepUpMax),
            rand (k+1) cfg.minPlatformWidth cfg.maxPlatformWidth, false⟩ ::
            recyclePass rand cfg ps (k+3) (rm + rand k cfg.minGap cfg.maxGap) := by
        simp only [recyclePass, if_pos hrec]
      cases i with
      | zero =>
        constructor
        · intro hne; exact absurd hrec hne
        · intro _
          rw [hre]
          simp only [List.getD_cons_zero, rmBefore]
          exact ⟨by have := hgap k; linarith, by trivial⟩
      | succ i =>
        have hi2 : i < ps.length := Nat.lt_of_succ_lt_succ (by simpa using hi)
        have hrm : rmBefore rand cfg (p :: ps) k rm (i + 1) =
            rmBefore rand cfg ps (k+3) (rm + rand k cfg.minGap cfg.maxGap) i := by
          simp only [rmBefore, if_pos hrec]
        rw [hre]
        simp only [List.getD_cons_succ, hrm]
        exact ih (k+3) (rm + rand k cfg.minGap cfg.maxGap) i hi2
    · have hre : recyclePass rand cfg (p :: ps) k rm =
          p :: recyclePass rand cfg ps k rm := by
        simp only [recyclePass, if_neg hrec]
      cases i with
      | zero =>
        constructor
        · intro _; rw [hre]; simp
        · intro hcon; exact absurd hcon hrec
      | succ i =>
        have hi2 : i < ps.length := Nat.lt_of_succ_lt_succ (by simpa using hi)
        have hrm : rmBefore rand cfg (p :: ps) k rm (i + 1) =
            rmBefore rand cfg ps k rm i := by
          simp only [rmBefore, if_neg hrec]
        rw [hre]
        simp only [List.getD_cons_succ, hrm]
        exact ih k rm i hi2

/-- C6: one call to scroll shifts every non-recycled platform left by
exactly `scrollSpeed·dt`, and every platform whose shifted right edge is
left of -60 is relocated to an x strictly greater than the rightMost
tracker value current before its relocation, with `counted` reset to false
(assuming the gap draws are at least `minGap > 0`). -/
theorem C6_scroll_and_recycle (cfg : GameConfig) (dt : ℚ)
    (rand : ℕ → ℚ → ℚ → ℚ) (ps : List Platform) (i : ℕ)
    (hgap : ∀ k : ℕ, cfg.minGap ≤ rand k cfg.minGap cfg.maxGap)
    (h0 : 0 < cfg.minGap) (hi : i < ps.length) :
    (¬(((ps.map (shiftPlatform dt cfg)).getD i default).x +
          ((ps.map (shiftPlatform dt cfg)).getD i default).width < -60) →
      (scrollPlatforms dt rand cfg ps).getD i default =
        (ps.map (shiftPlatform dt cfg)).getD i default ∧
      ((scrollPlatforms dt rand cfg ps).getD i default).x =
        (ps.getD i default).x - cfg.scrollSpeed * dt) ∧
    ((((ps.map (shiftPlatform dt cfg)).getD i default).x +
          ((ps.map (shiftPlatform dt cfg)).getD i default).width < -60) →
      rmBefore rand cfg (ps.map (shiftPlatform dt cfg)) 0
          (maxX (ps.map (shiftPlatform dt cfg)) 0) i <
        ((scrollPlatforms dt rand cfg ps).getD i default).x ∧
      ((scrollPlatforms dt rand cfg ps).getD i default).counted = false) := by
  have hlen : i < (ps.map (shiftPlatform dt cfg)).length := by
    simpa using hi
  have hspec := recyclePass_spec rand cfg hgap h0
    (ps.map (shiftPlatform dt cfg)) 0 (maxX (ps.map (shiftPlatform dt cfg)) 0)
    i hlen
  have hsc : scrollPlatforms dt rand cfg ps =
      recyclePass rand cfg (ps.map (shiftPlatform dt cfg)) 0
        (maxX (ps.map (shiftPlatform dt cfg)) 0) := rfl
  constructor
  · intro hne
    have h1 := hspec.1 hne
    rw [hsc, h1]
    refine ⟨rfl, ?_⟩
    rw [listGetD_map (shiftPlatform dt cfg) ps i hi]
    rfl
  · intro hyes
    rw [hsc]
    exact hspec.2 hyes

/-- C6 witness: two platforms, the first recycled (shifted right edge
-100 < -60), the second kept (shifted by exactly 220·dt with dt = 1). -/
theorem C6_scroll_and_recycle_witness :
    (∀ k : ℕ, defaultCfg.minGap ≤
      (fun (_ : ℕ) (lo _ : ℚ) => lo) k defaultCfg.minGap defaultCfg.maxGap) ∧
    (0 : ℚ) < defaultCfg.minGap ∧ 0 < [(⟨20, 300, 100, true⟩ : Platform),
      ⟨720, 310, 120, false⟩].length ∧
    ((¬((([(⟨20, 300, 100, true⟩ : Platform), ⟨720, 310, 120, false⟩].map
            (shiftPlatform 1 defaultCfg)).getD 0 default).x +
          (([(⟨20, 300, 100, true⟩ : Platform), ⟨720, 310, 120, false⟩].map
            (shiftPlatform 1 defaultCfg)).getD 0 default).width < -60) →
        (scrollPlatforms 1 (fun _ lo _ => lo) defaultCfg
            [⟨20, 300, 100, true⟩, ⟨720, 310, 120, false⟩]).getD 0 default =
          ([(⟨20, 300, 100, true⟩ : Platform), ⟨720, 310, 120, false⟩].map
            (shiftPlatform 1 defaultCfg)).getD 0 default ∧
        ((scrollPlatforms 1 (fun _ lo _ => lo) defaultCfg
            [⟨20, 300, 100, true⟩, ⟨720, 310, 120, false⟩]).getD 0 default).x =
          ([(⟨20, 300, 100, true⟩ : Platform),
            ⟨720, 310, 120, false⟩].getD 0 default).x -
            defaultCfg.scrollSpeed * 1) ∧
      ((([(⟨20, 300, 100, true⟩ : Platform), ⟨720, 310, 120, false⟩].map
            (shiftPlatform 1 defaultCfg)).getD 0 default).x +
          (([(⟨20, 300, 100, true⟩ : Platform), ⟨720, 310, 120, false⟩].map
            (shiftPlatform 1 defaultCfg)).getD 0 default).width < -60 →
        rmBefore (fun _ lo _ => lo) defaultCfg
            ([(⟨20, 300, 100, true⟩ : Platform), ⟨720, 310, 120, false⟩].map
              (shiftPlatform 1 defaultCfg)) 0
            (maxX ([(⟨20, 300, 100, true⟩ : Platform),
              ⟨720, 310, 120, false⟩].map (shiftPlatform 1 defaultCfg)) 0) 0 <
          ((scrollPlatforms 1 (fun _ lo _ => lo) defaultCfg
            [⟨20, 300, 100, true⟩, ⟨720, 310, 120, false⟩]).getD 0 default).x ∧
        ((scrollPlatforms 1 (fun _ lo _ => lo) defaultCfg
          [⟨20, 300, 100, true⟩,
            ⟨720, 310, 120, false⟩]).getD 0 default).counted = false)) :=
  ⟨fun _ => le_refl _, by norm_num [defaultCfg], by norm_num,
    C6_scroll_and_recycle defaultCfg 1 (fun _ lo _ => lo)
      [⟨20, 300, 100, true⟩, ⟨720, 310, 120, false⟩] 0
      (fun _ => le_refl _) (by norm_num [defaultCfg]) (by norm_num)⟩

/-! ## Helper lemmas for Game::update -/

/-- awardScore only flips `counted` flags: its returned array is the
pointwise marking of the input array. -/
theorem awardScore_snd_map (bx r : ℚ) (ps : List Platform) :
    (awardScore bx r ps).2 = ps.map fun p =>
      if ¬p.counted ∧ p.x + p.width < bx - r then
        ⟨p.x, p.yTop, p.width, true⟩ else p := by
  induction ps with
  | nil => rfl
  | cons p ps ih =>
    by_cases hc : ¬p.counted ∧ p.x + p.width < bx - r
    · have h1 : (awardScore bx r (p :: ps)).2 =
          ⟨p.x, p.yTop, p.width, true⟩ :: (awardScore bx r ps).2 := by
        simp only [awardScore, if_pos hc]
      rw [h1, List.map_cons, if_pos hc, ih]
    · have h1 : (awardScore bx r (p :: ps)).2 = p :: (awardScore bx r ps).2 := by
        simp only [awardScore, if_neg hc]
      rw [h1, List.map_cons, if_neg hc, ih]

/-- checkCollision ignores the `counted` flag, so marking platforms in
awardScore does not change its result. -/
theorem checkCollision_awardScore (bx r a b c d : ℚ) (ps : List Platform) :
    checkCollision (awardScore bx r ps).2 a b c d =
      checkCollision ps a b c d := by
  rw [awardScore_snd_map]
  simp only [checkCollision, List.any_map]
  congr 1
  funext q
  by_cases hc : ¬q.counted ∧ q.x + q.width < bx - r
  · simp only [Function.comp_apply, if_pos hc]
    rfl
  · simp only [Function.comp_apply, if_neg hc]

/-- checkCollision is false when every platform individually reports no
collision. -/
theorem checkCollision_false (a b c d : ℚ) (ps : List Platform)
    (h : ∀ p ∈ ps, collides a b c d p = false) :
    checkCollision ps a b c d = false := by
  induction ps with
  | nil => rfl
  | cons p ps ih =>
    have h1 : checkCollision (p :: ps) a b c d =
        (collides a b c d p || checkCollision ps a b c d) := by
      simp [checkCollision]
    rw [h1, h p (List.mem_cons_self p ps),
      ih fun q hq => h q (List.mem_cons_of_mem p hq)]
    rfl

/-- Tangency: a ball resting exactly on a platform's top (center at
`yTop - radius`, horizontally within the platform) is NOT reported as a
collision by the strict distance test. -/
theorem collides_tangent (bx r ph : ℚ) (p : Platform) (hr : 0 < r)
    (hx1 : p.x ≤ bx) (hx2 : bx ≤ p.x + p.width) :
    collides bx (p.yTop - r) r ph p = false := by
  simp only [collides]
  rw [if_neg (not_lt.mpr hx1), if_neg (not_lt.mpr hx2),
    if_pos (by linarith : p.yTop - r < p.yTop)]
  apply decide_eq_false
  intro hcon
  nlinarith [mul_self_nonneg (bx - bx)]

/-- A platform entirely above the ball by at least the radius (top edge,
thickness and radius all clear of the center) is not a collision. -/
theorem collides_far_above (bx ballY r ph : ℚ) (p : Platform) (hr : 0 < r)
    (hph : 0 ≤ ph) (h : p.yTop + ph + r ≤ ballY) :
    collides bx ballY r ph p = false := by
  simp only [collides]
  rw [if_neg (by linarith : ¬(ballY < p.yTop)),
    if_pos (by linarith : ballY > p.yTop + ph)]
  apply decide_eq_false
  intro hcon
  nlinarith [mul_self_nonneg (bx - if bx < p.x then p.x
      else if bx > p.x + p.width then p.x + p.width else bx),
    mul_self_nonneg (ballY - (p.yTop + ph) - r)]

/-- Game::update in the Playing state, written through the frame-stage
definitions. -/
theorem update_playing (dt : ℚ) (held : Bool) (rand : ℕ → ℚ → ℚ → ℚ)
    (cfg : GameConfig) (s : GState)
    (h1 : s.gameOver = false) (h2 : s.levelComplete = false) :
    update dt held rand cfg s =
      ⟨framePlayer dt held rand cfg s,
        (frameAward dt held rand cfg s).2,
        s.score + (frameAward dt held rand cfg s).1,
        (s.gameOver || ((frameLand dt held rand cfg s).landedOnGround &&
          (framePlayer dt held rand cfg s).hasLeftGround)) ||
          checkCollision (frameAward dt held rand cfg s).2
            (framePlayer dt held rand cfg s).x
            (framePlayer dt held rand cfg s).y cfg.radius cfg.platformHeight,
        s.levelComplete ||
          decide (cfg.totalPlatforms ≤
            s.score + (frameAward dt held rand cfg s).1),
        min 0 ((framePlayer dt held rand cfg s).y -
          cfg.screenHeight * (2/5))⟩ := by
  simp only [update, framePlayer, frameLand, frameAward, framePlatforms]
  rw [if_neg (by simp [h1, h2])]

/-- If resolveLanding reports a ground landing, the full result is the
ground snap. -/
theorem resolveLanding_ground (ps : List Platform)
    (ballX prevY y vy radius groundY : ℚ)
    (h : (resolveLanding ps ballX prevY y vy radius groundY).landedOnGround
      = true) :
    resolveLanding ps ballX prevY y vy radius groundY =
      ⟨groundY, 0, true, true⟩ := by
  simp only [resolveLanding] at h ⊢
  split_ifs at h ⊢ <;> simp_all

/-! ## Game::update ground-touch rule: C8 -/

/-- C8: in a Playing frame where the landing resolution reports
`landedOnGround = true`, update sets gameOver iff dying is armed:
with `hasLeftGround = true` the frame ends with `gameOver = true`;
with `hasLeftGround = false` the ground-touch rule does not fire and,
provided the frame's collision check is also false, the frame leaves
`gameOver = false`. -/
theorem C8_ground_touch_death (cfg : GameConfig) (s : GState) (dt : ℚ)
    (held : Bool) (rand : ℕ → ℚ → ℚ → ℚ)
    (hgo : s.gameOver = false) (hlc : s.levelComplete = false)
    (hlg : (frameLand dt held rand cfg s).landedOnGround = true) :
    (s.player.hasLeftGround = true →
      (update dt held rand cfg s).gameOver = true) ∧
    (s.player.hasLeftGround = false →
      checkCollision (frameAward dt held rand cfg s).2
        (framePlayer dt held rand cfg s).x
        (framePlayer dt held rand cfg s).y cfg.radius cfg.platformHeight
        = false →
      (update dt held rand cfg s).gameOver = false) := by
  have hL : frameLand dt held rand cfg s = ⟨cfg.groundY, 0, true, true⟩ := by
    exact resolveLanding_ground (framePlatforms dt rand cfg s)
      (stepPlayer dt held cfg s.player).x s.player.y
      (stepPlayer dt held cfg s.player).y
      (stepPlayer dt held cfg s.player).vy cfg.radius cfg.groundY hlg
  have hhl : (stepPlayer dt held cfg s.player).hasLeftGround =
      s.player.hasLeftGround := rfl
  have hPhl : (framePlayer dt held rand cfg s).hasLeftGround =
      s.player.hasLeftGround := by
    simp only [framePlayer, hL]
    simp [setGrounded]
    exact hhl
  rw [update_playing dt held rand cfg s hgo hlc]
  constructor
  · intro htrue
    show ((s.gameOver || ((frameLand dt held rand cfg s).landedOnGround &&
        (framePlayer dt held rand cfg s).hasLeftGround)) ||
      checkCollision (frameAward dt held rand cfg s).2
        (framePlayer dt held rand cfg s).x
        (framePlayer dt held rand cfg s).y cfg.radius cfg.platformHeight)
        = true
    rw [hL, hPhl, htrue]
    simp
  · intro hfalse hcol
    show ((s.gameOver || ((frameLand dt held rand cfg s).landedOnGround &&
        (framePlayer dt held rand cfg s).hasLeftGround)) ||
      checkCollision (frameAward dt held rand cfg s).2
        (framePlayer dt held rand cfg s).x
        (framePlayer dt held rand cfg s).y cfg.radius cfg.platformHeight)
        = false
    rw [hgo, hPhl, hfalse, hcol]
    simp

/-- C8 witness: the ball already past the ground with `dt = 0`,
`hasLeftGround = true`, no platforms: the frame ends in gameOver. -/
theorem C8_ground_touch_death_witness :
    (⟨⟨200, 371, 0, 0, 2, false, false, true, 0⟩, [], 0, false, false, 0⟩ :
      GState).gameOver = false ∧
    (⟨⟨200, 371, 0, 0, 2, false, false, true, 0⟩, [], 0, false, false, 0⟩ :
      GState).levelComplete = false ∧
    (frameLand 0 false (fun _ _ _ => 0) defaultCfg
      ⟨⟨200, 371, 0, 0, 2, false, false, true, 0⟩, [], 0, false, false, 0⟩
      ).landedOnGround = true ∧
    (((⟨⟨200, 371, 0, 0, 2, false, false, true, 0⟩, [], 0, false, false, 0⟩ :
        GState).player.hasLeftGround = true →
      (update 0 false (fun _ _ _ => 0) defaultCfg
        ⟨⟨200, 371, 0, 0, 2, false, false, true, 0⟩, [], 0, false, false, 0⟩
        ).gameOver = true) ∧
      ((⟨⟨200, 371, 0, 0, 2, false, false, true, 0⟩, [], 0, false, false, 0⟩ :
        GState).player.hasLeftGround = false →
      checkCollision (frameAward 0 false (fun _ _ _ => 0) defaultCfg
          ⟨⟨200, 371, 0, 0, 2, false, false, true, 0⟩, [], 0, false, false, 0⟩).2
        (framePlayer 0 false (fun _ _ _ => 0) defaultCfg
          ⟨⟨200, 371, 0, 0, 2, false, false, true, 0⟩, [], 0, false, false, 0⟩).x
        (framePlayer 0 false (fun _ _ _ => 0) defaultCfg
          ⟨⟨200, 371, 0, 0, 2, false, false, true, 0⟩, [], 0, false, false, 0⟩).y
        defaultCfg.radius defaultCfg.platformHeight = false →
      (update 0 false (fun _ _ _ => 0) defaultCfg
        ⟨⟨200, 371, 0, 0, 2, false, false, true, 0⟩, [], 0, false, false, 0⟩
        ).gameOver = false)) :=
  ⟨rfl, rfl,
    by norm_num [frameLand, framePlatforms, scrollPlatforms, shiftPlatform,
      recyclePass, maxX, stepPlayer, resolveLanding, landLoop, defaultCfg],
    C8_ground_touch_death defaultCfg
      ⟨⟨200, 371, 0, 0, 2, false, false, true, 0⟩, [], 0, false, false, 0⟩
      0 false (fun _ _ _ => 0) rfl rfl
      (by norm_num [frameLand, framePlatforms, scrollPlatforms, shiftPlatform,
        recyclePass, maxX, stepPlayer, resolveLanding, landLoop, defaultCfg])⟩

/-! ## Landing-before-collision: C1 -/

/-- If a platform qualifies with yTop below groundY and minimal among the
qualifiers, resolveLanding snaps exactly onto it. -/
theorem resolveLanding_snaps (ps : List Platform)
    (ballX prevY y vy radius groundY : ℚ) (p : Platform)
    (hvy : vy ≥ 0) (hmem : p ∈ ps) (hq : landQual ballX prevY y radius p)
    (htop : p.yTop < groundY)
    (hmin : ∀ q ∈ ps, landQual ballX prevY y radius q → p.yTop ≤ q.yTop) :
    resolveLanding ps ballX prevY y vy radius groundY =
      ⟨p.yTop - radius, 0, true, false⟩ := by
  rcases landLoop_spec ballX prevY y radius ps groundY false with ⟨_, hall⟩ |
    ⟨h2, _, ⟨q, hqm, hql, hqe⟩, hall⟩
  · exact absurd htop (not_lt.mpr (hall p hmem hq))
  · have ht : (landLoop ballX prevY y radius ps (groundY, false)).1 = p.yTop := by
      refine le_antisymm (hall p hmem hq) ?_
      rw [hqe]
      exact hmin q hqm hql
    have hacc : (if vy ≥ 0 then landLoop ballX prevY y radius ps (groundY, false)
        else (groundY, false)) = landLoop ballX prevY y radius ps (groundY, false) :=
      if_pos hvy
    simp only [resolveLanding, hacc]
    rw [if_pos h2, ht]

/-- C1: in a Playing frame of Game::update, a ball whose trajectory
crosses a platform top this frame (previous bottom at/above the top,
current bottom at/below it, horizontally within the platform, falling),
where that platform is the landed-on one (top below groundY, minimal
among the qualifiers), is snapped to `yTop - radius` with `vy = 0` before
checkCollision runs, the strict distance test is exactly tangent there,
and — given the ball does not strictly overlap any other platform — the
frame does not set gameOver. -/
theorem C1_landing_resolved_before_collision (cfg : GameConfig) (s : GState)
    (dt : ℚ) (held : Bool) (rand : ℕ → ℚ → ℚ → ℚ) (p : Platform)
    (hgo : s.gameOver = false) (hlc : s.levelComplete = false)
    (hrad : 0 < cfg.radius)
    (hvy : (stepPlayer dt held cfg s.player).vy ≥ 0)
    (hmem : p ∈ framePlatforms dt rand cfg s)
    (hq : landQual s.player.x s.player.y
      (stepPlayer dt held cfg s.player).y cfg.radius p)
    (htop : p.yTop < cfg.groundY)
    (hmin : ∀ q ∈ framePlatforms dt rand cfg s,
      landQual s.player.x s.player.y
        (stepPlayer dt held cfg s.player).y cfg.radius q → p.yTop ≤ q.yTop)
    (hother : ∀ q ∈ framePlatforms dt rand cfg s, q ≠ p →
      collides s.player.x (p.yTop - cfg.radius) cfg.radius
        cfg.platformHeight q = false) :
    (update dt held rand cfg s).gameOver = false ∧
    (update dt held rand cfg s).player.y = p.yTop - cfg.radius ∧
    (update dt held rand cfg s).player.vy = 0 := by
  have hq2 : landQual (stepPlayer dt held cfg s.player).x s.player.y
      (stepPlayer dt held cfg s.player).y cfg.radius p := hq
  have hmin2 : ∀ q ∈ framePlatforms dt rand cfg s,
      landQual (stepPlayer dt held cfg s.player).x s.player.y
        (stepPlayer dt held cfg s.player).y cfg.radius q → p.yTop ≤ q.yTop :=
    hmin
  have hL : frameLand dt held rand cfg s =
      ⟨p.yTop - cfg.radius, 0, true, false⟩ := by
    exact resolveLanding_snaps (framePlatforms dt rand cfg s)
      (stepPlayer dt held cfg s.player).x s.player.y
      (stepPlayer dt held cfg s.player).y
      (stepPlayer dt held cfg s.player).vy cfg.radius cfg.groundY p
      hvy hmem hq2 htop hmin2
  have hP : framePlayer dt held rand cfg s =
      ⟨(stepPlayer dt held cfg s.player).x, p.yTop - cfg.radius, 0,
        (stepPlayer dt held cfg s.player).rot, 2, false, true,
        (stepPlayer dt held cfg s.player).hasLeftGround,
        (stepPlayer dt held cfg s.player).jumpHoldTimer⟩ := by
    simp only [framePlayer, hL]
    simp [setGrounded]
  have hx : (framePlayer dt held rand cfg s).x = s.player.x := by
    rw [hP]
    exact rfl
  have hy : (framePlayer dt held rand cfg s).y = p.yTop - cfg.radius := by
    rw [hP]
  have hcc : checkCollision (frameAward dt held rand cfg s).2
      (framePlayer dt held rand cfg s).x (framePlayer dt held rand cfg s).y
      cfg.radius cfg.platformHeight = false := by
    rw [hx, hy]
    have h1 : checkCollision (frameAward dt held rand cfg s).2 s.player.x
        (p.yTop - cfg.radius) cfg.radius cfg.platformHeight =
        checkCollision (framePlatforms dt rand cfg s) s.player.x
        (p.yTop - cfg.radius) cfg.radius cfg.platformHeight :=
      checkCollision_awardScore ((framePlayer dt held rand cfg s).x) cfg.radius
        s.player.x (p.yTop - cfg.radius) cfg.radius cfg.platformHeight
        (framePlatforms dt rand cfg s)
    rw [h1]
    apply checkCollision_false
    intro q hqm
    by_cases hqp : q = p
    · subst hqp
      exact collides_tangent s.player.x cfg.radius cfg.platformHeight q hrad
        hq.2.2.1 hq.2.2.2
    · exact hother q hqm hqp
  rw [update_playing dt held rand cfg s hgo hlc]
  refine ⟨?_, ?_, ?_⟩
  · show ((s.gameOver || ((frameLand dt held rand cfg s).landedOnGround &&
        (framePlayer dt held rand cfg s).hasLeftGround)) ||
      checkCollision (frameAward dt held rand cfg s).2
        (framePlayer dt held rand cfg s).x
        (framePlayer dt held rand cfg s).y cfg.radius cfg.platformHeight)
        = false
    rw [hgo, hL, hcc]
    simp
  · show (framePlayer dt held rand cfg s).y = p.yTop - cfg.radius
    exact hy
  · show (framePlayer dt held rand cfg s).vy = 0
    rw [hP]

/-- C1 witness: one platform with its top exactly crossed this frame
(dt = 0 tangency), ball horizontally inside it; the frame lands the ball
at yTop - radius and does not set gameOver. -/
theorem C1_landing_resolved_before_collision_witness :
    (⟨⟨200, 330, 0, 0, 2, false, false, false, 0⟩, [⟨100, 350, 120, false⟩],
      0, false, false, 0⟩ : GState).gameOver = false ∧
    (⟨⟨200, 330, 0, 0, 2, false, false, false, 0⟩, [⟨100, 350, 120, false⟩],
      0, false, false, 0⟩ : GState).levelComplete = false ∧
    (0 : ℚ) < defaultCfg.radius ∧
    (stepPlayer 0 false defaultCfg
      (⟨200, 330, 0, 0, 2, false, false, false, 0⟩ : PlayerState)).vy ≥ 0 ∧
    (⟨100, 350, 120, false⟩ : Platform) ∈ framePlatforms 0 (fun _ _ _ => 0)
      defaultCfg ⟨⟨200, 330, 0, 0, 2, false, false, false, 0⟩,
        [⟨100, 350, 120, false⟩], 0, false, false, 0⟩ ∧
    ((update 0 false (fun _ _ _ => 0) defaultCfg
        ⟨⟨200, 330, 0, 0, 2, false, false, false, 0⟩,
          [⟨100, 350, 120, false⟩], 0, false, false, 0⟩).gameOver = false ∧
      (update 0 false (fun _ _ _ => 0) defaultCfg
        ⟨⟨200, 330, 0, 0, 2, false, false, false, 0⟩,
          [⟨100, 350, 120, false⟩], 0, false, false, 0⟩).player.y =
        (⟨100, 350, 120, false⟩ : Platform).yTop - defaultCfg.radius ∧
      (update 0 false (fun _ _ _ => 0) defaultCfg
        ⟨⟨200, 330, 0, 0, 2, false, false, false, 0⟩,
          [⟨100, 350, 120, false⟩], 0, false, false, 0⟩).player.vy = 0) :=
  ⟨rfl, rfl, by norm_num [defaultCfg],
    by norm_num [stepPlayer, defaultCfg],
    by norm_num [framePlatforms, scrollPlatforms, shiftPlatform, recyclePass,
      maxX, defaultCfg],
    C1_landing_resolved_before_collision defaultCfg
      ⟨⟨200, 330, 0, 0, 2, false, false, false, 0⟩, [⟨100, 350, 120, false⟩],
        0, false, false, 0⟩ 0 false (fun _ _ _ => 0) ⟨100, 350, 120, false⟩
      rfl rfl (by norm_num [defaultCfg])
      (by norm_num [stepPlayer, defaultCfg])
      (by norm_num [framePlatforms, scrollPlatforms, shiftPlatform,
        recyclePass, maxX, defaultCfg])
      (by norm_num [landQual, stepPlayer, defaultCfg])
      (by norm_num [defaultCfg])
      (by
        intro q hq hql
        simp only [framePlatforms, scrollPlatforms, shiftPlatform, recyclePass,
          maxX] at hq
        norm_num [defaultCfg] at hq
        rw [hq])
      (by
        intro q hq hne
        simp only [framePlatforms, scrollPlatforms, shiftPlatform, recyclePass,
          maxX] at hq
        norm_num [defaultCfg] at hq
        exact absurd (by rw [hq]) hne)⟩

/-! ## Mutually exclusive terminal flags: C4 -/

/-- During generation, every platform top stays at or above depth 335
(= 370 - 20 - 15) when steps are at least 15 and the running top is at
most 350. -/
theorem genAux_top335 (rand : ℕ → ℚ → ℚ → ℚ) (cfg : GameConfig)
    (hr : InRange rand) (hminy : cfg.minPlatformY ≤ 335)
    (h15 : 15 ≤ cfg.stepUpMin) (hrange : cfg.stepUpMin ≤ cfg.stepUpMax) :
    ∀ (n k : ℕ) (cursor prevTop : ℚ), prevTop ≤ 350 →
      ∀ p ∈ genAux rand cfg n k cursor prevTop, p.yTop ≤ 335 := by
  intro n
  induction n with
  | zero => intro k cursor prevTop hpt p hp; simp [genAux] at hp
  | succ n ih =>
    intro k cursor prevTop hpt p hp
    simp only [genAux, List.mem_cons] at hp
    obtain ⟨hs1, hs2⟩ := hr (k+2) cfg.stepUpMin cfg.stepUpMax hrange
    have htop : max cfg.minPlatformY
        (prevTop - rand (k+2) cfg.stepUpMin cfg.stepUpMax) ≤ 335 :=
      max_le hminy (by linarith)
    rcases hp with heq | hmem
    · rw [heq]; exact htop
    · exact ih (k+3) _ _ (le_trans htop (by norm_num)) p hmem

/-- Recycling preserves the depth-335 top bound. -/
theorem recyclePass_top335 (rand : ℕ → ℚ → ℚ → ℚ) (cfg : GameConfig)
    (hr : InRange rand) (hminy : cfg.minPlatformY ≤ 335)
    (h15 : 15 ≤ cfg.stepUpMin) (hrange : cfg.stepUpMin ≤ cfg.stepUpMax) :
    ∀ (ps : List Platform) (k : ℕ) (rm : ℚ), (∀ p ∈ ps, p.yTop ≤ 335) →
      ∀ q ∈ recyclePass rand cfg ps k rm, q.yTop ≤ 335 := by
  intro ps
  induction ps with
  | nil => intro k rm hps q hq; simp [recyclePass] at hq
  | cons p ps ih =>
    intro k rm hps q hq
    have hp := hps p (List.mem_cons_self p ps)
    have hps2 : ∀ r ∈ ps, r.yTop ≤ 335 :=
      fun r hr2 => hps r (List.mem_cons_of_mem p hr2)
    by_cases hrec : p.x + p.width < -60
    · simp only [recyclePass, if_pos hrec, List.mem_cons] at hq
      obtain ⟨hs1, hs2⟩ := hr (k+2) cfg.stepUpMin cfg.stepUpMax hrange
      rcases hq with heq | hmem
      · rw [heq]
        exact max_le hminy (by linarith)
      · exact ih (k+3) _ hps2 q hmem
    · simp only [recyclePass, if_neg hrec, List.mem_cons] at hq
      rcases hq with heq | hmem
      · rw [heq]; exact hp
      · exact ih k rm hps2 q hmem

/-- Scrolling preserves the depth-335 top bound. -/
theorem scrollPlatforms_top335 (dt : ℚ) (rand : ℕ → ℚ → ℚ → ℚ)
    (cfg : GameConfig) (hr : InRange rand) (hminy : cfg.minPlatformY ≤ 335)
    (h15 : 15 ≤ cfg.stepUpMin) (hrange : cfg.stepUpMin ≤ cfg.stepUpMax)
    (ps : List Platform) (h : ∀ p ∈ ps, p.yTop ≤ 335) :
    ∀ q ∈ scrollPlatforms dt rand cfg ps, q.yTop ≤ 335 := by
  have hshift : ∀ p ∈ ps.map (shiftPlatform dt cfg), p.yTop ≤ 335 := by
    intro p hp
    obtain ⟨r, hrm, hre⟩ := List.mem_map.mp hp
    rw [← hre]
    exact h r hrm
  exact recyclePass_top335 rand cfg hr hminy h15 hrange
    (ps.map (shiftPlatform dt cfg)) 0 (maxX (ps.map (shiftPlatform dt cfg)) 0)
    hshift

/-- awardScore preserves any upper bound on the platform tops. -/
theorem awardScore_yTop_le (bx r B : ℚ) (ps : List Platform)
    (h : ∀ p ∈ ps, p.yTop ≤ B) :
    ∀ q ∈ (awardScore bx r ps).2, q.yTop ≤ B := by
  intro q hq
  rw [awardScore_snd_map] at hq
  obtain ⟨p, hpm, hpe⟩ := List.mem_map.mp hq
  by_cases hc : ¬p.counted ∧ p.x + p.width < bx - r
  · rw [← hpe, if_pos hc]; exact h p hpm
  · rw [← hpe, if_neg hc]; exact h p hpm

/-- Assembling the update invariant from per-stage facts: if the frame
player ends grounded-safe (y = 370, falling or still, no jump state, has
never left the ground) over platforms whose tops are all at depth ≤ 335,
the updated state satisfies the invariant. -/
theorem C4_assemble (dt : ℚ) (held : Bool) (rand : ℕ → ℚ → ℚ → ℚ)
    (cfg : GameConfig) (s : GState)
    (h1 : s.gameOver = false) (hlc : s.levelComplete = false)
    (hrad : 0 < cfg.radius) (hph : 0 ≤ cfg.platformHeight)
    (hsum : cfg.platformHeight + cfg.radius ≤ 35)
    (hPy : (framePlayer dt held rand cfg s).y = 370)
    (hPvy : 0 ≤ (framePlayer dt held rand cfg s).vy)
    (hPij : (framePlayer dt held rand cfg s).isJumping = false)
    (hPhlg : (framePlayer dt held rand cfg s).hasLeftGround = false)
    (hPS : ∀ q ∈ framePlatforms dt rand cfg s, q.yTop ≤ 335) :
    C4Inv (update dt held rand cfg s) := by
  have hAW : ∀ q ∈ (frameAward dt held rand cfg s).2, q.yTop ≤ 335 := by
    exact awardScore_yTop_le ((framePlayer dt held rand cfg s).x) cfg.radius
      335 (framePlatforms dt rand cfg s) hPS
  have hcc : checkCollision (frameAward dt held rand cfg s).2
      (framePlayer dt held rand cfg s).x (framePlayer dt held rand cfg s).y
      cfg.radius cfg.platformHeight = false := by
    rw [hPy]
    apply checkCollision_false
    intro q hq
    apply collides_far_above _ _ _ _ _ hrad hph
    have hb := hAW q hq
    linarith
  rw [update_playing dt held rand cfg s h1 hlc]
  simp only [C4Inv]
  refine ⟨?_, hPy, hPvy, hPij, hPhlg, hAW⟩
  show ((s.gameOver || ((frameLand dt held rand cfg s).landedOnGround &&
      (framePlayer dt held rand cfg s).hasLeftGround)) ||
    checkCollision (frameAward dt held rand cfg s).2
      (framePlayer dt held rand cfg s).x
      (framePlayer dt held rand cfg s).y cfg.radius cfg.platformHeight)
      = false
  rw [h1, hPhlg, hcc]
  simp

/-- One Game::update step preserves the invariant C4Inv, for any
configuration that agrees with the program's on the grounded-safety
constants and has nonnegative gravity. -/
theorem C4_step (dt : ℚ) (held : Bool) (rand : ℕ → ℚ → ℚ → ℚ)
    (cfg : GameConfig) (s : GState)
    (hdt : 0 ≤ dt) (hr : InRange rand) (hg : 0 ≤ cfg.gravity)
    (hrad : cfg.radius = 20) (hgY : cfg.groundY = 370)
    (hradpos : 0 < cfg.radius) (hph : 0 ≤ cfg.platformHeight)
    (hsum : cfg.platformHeight + cfg.radius ≤ 35)
    (hminy : cfg.minPlatformY ≤ 335) (h15 : 15 ≤ cfg.stepUpMin)
    (hrange : cfg.stepUpMin ≤ cfg.stepUpMax)
    (hinv : C4Inv s) : C4Inv (update dt held rand cfg s) := by
  obtain ⟨h1, h2, h3, h4, h5, h6⟩ := hinv
  by_cases hterm : s.levelComplete = true
  · have heq : update dt held rand cfg s = s := by
      simp only [update]
      rw [if_pos (Or.inr hterm)]
    rw [heq]
    exact ⟨h1, h2, h3, h4, h5, h6⟩
  have hlc : s.levelComplete = false := by
    cases hval : s.levelComplete
    · rfl
    · exact absurd hval hterm
  have hvyeq : (stepPlayer dt held cfg s.player).vy =
      s.player.vy + cfg.gravity * dt := by
    simp [stepPlayer, h4]
  have hvy0 : 0 ≤ (stepPlayer dt held cfg s.player).vy := by
    rw [hvyeq]
    have := mul_nonneg hg hdt
    linarith
  have hyeq : (stepPlayer dt held cfg s.player).y =
      s.player.y + (stepPlayer dt held cfg s.player).vy * dt := rfl
  have hyge : (370 : ℚ) ≤ (stepPlayer dt held cfg s.player).y := by
    rw [hyeq, h2]
    have := mul_nonneg hvy0 hdt
    linarith
  have hij : (stepPlayer dt held cfg s.player).isJumping = false := h4
  have hhlg : (stepPlayer dt held cfg s.player).hasLeftGround = false := h5
  have hPS : ∀ q ∈ framePlatforms dt rand cfg s, q.yTop ≤ 335 := by
    exact scrollPlatforms_top335 dt rand cfg hr hminy h15 hrange s.platforms h6
  have hnoq : ∀ q ∈ framePlatforms dt rand cfg s,
      ¬ landQual (stepPlayer dt held cfg s.player).x s.player.y
        (stepPlayer dt held cfg s.player).y cfg.radius q := by
    intro q hqm hql
    have hb := hPS q hqm
    have hcross := hql.2.1
    rw [hrad, h2] at hcross
    linarith
  have hLL : landLoop (stepPlayer dt held cfg s.player).x s.player.y
      (stepPlayer dt held cfg s.player).y cfg.radius
      (framePlatforms dt rand cfg s) (cfg.groundY, false) =
      (cfg.groundY, false) :=
    landLoop_no_qual _ _ _ _ _ _ _ hnoq
  have hacc : (if (stepPlayer dt held cfg s.player).vy ≥ 0 then
      landLoop (stepPlayer dt held cfg s.player).x s.player.y
        (stepPlayer dt held cfg s.player).y cfg.radius
        (framePlatforms dt rand cfg s) (cfg.groundY, false)
      else (cfg.groundY, false)) =
      landLoop (stepPlayer dt held cfg s.player).x s.player.y
        (stepPlayer dt held cfg s.player).y cfg.radius
        (framePlatforms dt rand cfg s) (cfg.groundY, false) := if_pos hvy0
  by_cases hgr : (stepPlayer dt held cfg s.player).y > cfg.groundY
  · have hL : frameLand dt held rand cfg s = ⟨cfg.groundY, 0, true, true⟩ := by
      show resolveLanding (framePlatforms dt rand cfg s)
        (stepPlayer dt held cfg s.player).x s.player.y
        (stepPlayer dt held cfg s.player).y
        (stepPlayer dt held cfg s.player).vy cfg.radius cfg.groundY =
        ⟨cfg.groundY, 0, true, true⟩
      simp only [resolveLanding, hacc, hLL]
      simp [hgr]
    have hP : framePlayer dt held rand cfg s =
        ⟨(stepPlayer dt held cfg s.player).x, cfg.groundY, 0,
          (stepPlayer dt held cfg s.player).rot, 2, false, true,
          (stepPlayer dt held cfg s.player).hasLeftGround,
          (stepPlayer dt held cfg s.player).jumpHoldTimer⟩ := by
      simp only [framePlayer, hL]
      simp [setGrounded]
    apply C4_assemble dt held rand cfg s h1 hlc hradpos hph hsum
    · rw [hP]; exact hgY
    · rw [hP]
    · rw [hP]
    · rw [hP]; exact hhlg
    · exact hPS
  · have hy370 : (stepPlayer dt held cfg s.player).y = cfg.groundY := by
      refine le_antisymm (not_lt.mp hgr) ?_
      rw [hgY]
      exact hyge
    have hL : frameLand dt held rand cfg s =
        ⟨(stepPlayer dt held cfg s.player).y,
          (stepPlayer dt held cfg s.player).vy, false, false⟩ := by
      show resolveLanding (framePlatforms dt rand cfg s)
        (stepPlayer dt held cfg s.player).x s.player.y
        (stepPlayer dt held cfg s.player).y
        (stepPlayer dt held cfg s.player).vy cfg.radius cfg.groundY =
        ⟨(stepPlayer dt held cfg s.player).y,
          (stepPlayer dt held cfg s.player).vy, false, false⟩
      simp only [resolveLanding, hacc, hLL]
      simp [hgr]
    have hP : framePlayer dt held rand cfg s =
        ⟨(stepPlayer dt held cfg s.player).x,
          (stepPlayer dt held cfg s.player).y,
          (stepPlayer dt held cfg s.player).vy,
          (stepPlayer dt held cfg s.player).rot,
          (stepPlayer dt held cfg s.player).jumpsRemaining,
          (stepPlayer dt held cfg s.player).isJumping, false,
          (stepPlayer dt held cfg s.player).hasLeftGround,
          (stepPlayer dt held cfg s.player).jumpHoldTimer⟩ := by
      simp only [framePlayer, hL]
      simp [setGrounded]
    apply C4_assemble dt held rand cfg s h1 hlc hradpos hph hsum
    · rw [hP]
      show (stepPlayer dt held cfg s.player).y = 370
      rw [hy370]
      exact hgY
    · rw [hP]
      show 0 ≤ (stepPlayer dt held cfg s.player).vy
      exact hvy0
    · rw [hP]
      show (stepPlayer dt held cfg s.player).isJumping = false
      exact hij
    · rw [hP]
      show (stepPlayer dt held cfg s.player).hasLeftGround = false
      exact hhlg
    · exact hPS

/-- Game::reset establishes the invariant C4Inv. -/
theorem C4_reset (rand : ℕ → ℚ → ℚ → ℚ) (cfg : GameConfig)
    (hr : InRange rand) (hgY : cfg.groundY = 370)
    (hminy : cfg.minPlatformY ≤ 335) (h15 : 15 ≤ cfg.stepUpMin)
    (hrange : cfg.stepUpMin ≤ cfg.stepUpMax) :
    C4Inv (resetState rand cfg) := by
  simp only [C4Inv]
  refine ⟨rfl, hgY, le_refl 0, rfl, rfl, ?_⟩
  intro p hp
  exact genAux_top335 rand cfg hr hminy h15 hrange cfg.totalPlatforms 0
    (cfg.screenWidth + 200) (cfg.groundY - 20) (by rw [hgY]; norm_num) p hp

/-- C4: in every state reachable from Game::reset by Game::update steps
(any nonnegative frame times, any held-key inputs, any in-range random
draws, gravity scaled by any nonnegative factor), gameOver and
levelComplete are never both true.  In fact update-only runs never set
gameOver at all: without handleInput no jump ever starts, so the ball
rests on the ground, every frame re-snaps it there safely, and no
platform can reach it. -/
theorem C4_flags_mutually_exclusive (g : ℚ) (hg : 0 ≤ g) (s : GState)
    (hreach : Reach g s) :
    ¬(s.gameOver = true ∧ s.levelComplete = true) := by
  have hinv : C4Inv s := by
    induction hreach with
    | init rand hr =>
      exact C4_reset rand { gravity := g } hr rfl (by norm_num) (by norm_num)
        (by norm_num)
    | step t dt held rand ht hdt hr ih =>
      exact C4_step dt held rand { gravity := g } t hdt hr hg rfl rfl
        (by norm_num) (by norm_num) (by norm_num) (by norm_num) (by norm_num)
        (by norm_num) ih
  intro hcon
  obtain ⟨ha, _⟩ := hcon
  rw [hinv.1] at ha
  simp at ha

/-- C4 witness. -/
theorem C4_flags_mutually_exclusive_witness :
    (0 : ℚ) ≤ 1000 ∧
    Reach 1000 (resetState (fun _ lo _ => lo) { gravity := 1000 }) ∧
    ¬((resetState (fun _ lo _ => lo)
        { gravity := 1000 } : GState).gameOver = true ∧
      (resetState (fun _ lo _ => lo)
        { gravity := 1000 } : GState).levelComplete = true) :=
  ⟨by norm_num, Reach.init _ (fun _ lo hi h => ⟨le_refl lo, h⟩),
    C4_flags_mutually_exclusive 1000 (by norm_num) _
      (Reach.init _ (fun _ lo hi h => ⟨le_refl lo, h⟩))⟩
